import Mathlib

/-!
Verification development for the single-site news crawler (`crawler.py`).

The crawler's pure helpers (`normalize_url`, `host_in_domain`,
`content_main_type`, `SizeBuckets.add`, `Stats.on_attempt`, `Stats.on_visit`,
`allowed_by_robots`) are embedded directly.  The worker loop
(`Crawler.worker`) is embedded as a deterministic step function over an
explicit crawler state, with the HTTP transport and the HTML anchor
extraction modelled as an environment `Env : String → Option Response`
(`none` models a transport-level exception).  The `Politeness` gate is
embedded as a timed model over rationals, with the monotonic clock and the
scheduler's sleep modelled by explicit hypotheses.

The Python standard-library URL functions (`urljoin`, `urldefrag`,
`urlparse`/`urlsplit`, `hostname`) are external collaborators of the source
file; they are modelled below, following CPython's `urllib/parse.py`
(scheme detection, netloc/fragment/query splitting, RFC-3986-style relative
resolution with dot-segment removal; IPv6 bracket hosts and the separate
`params` component are not modelled, and `str.strip` is modelled on ASCII
whitespace).  Python `set` iteration order is unspecified; the link set
built by the worker is modelled as a duplicate-free list in first-discovery
order.
-/

/-! ### Character-list string helpers -/

def isPySpace (c : Char) : Bool :=
  c == ' ' || c == '\t' || c == '\n' || c == '\r' || c == '\x0b' || c == '\x0c'

/-- Model of Python `str.strip()` (ASCII whitespace). -/
def pyStrip (s : String) : String :=
  String.mk (((s.toList.dropWhile isPySpace).reverse.dropWhile isPySpace).reverse)

/-- Lower-case every character (Python `str.lower()` on ASCII). -/
def lowerStr (s : String) : String :=
  String.mk (s.toList.map Char.toLower)

def startsWithL : List Char → List Char → Bool
  | _, [] => true
  | [], _ :: _ => false
  | c :: cs, d :: ds => c == d && startsWithL cs ds

/-- Model of Python `str.startswith`. -/
def strStarts (s pat : String) : Bool :=
  startsWithL s.toList pat.toList

/-- Model of Python `str.endswith`. -/
def strEnds (s pat : String) : Bool :=
  startsWithL s.toList.reverse pat.toList.reverse

/-- Split at the first occurrence of `sep`: `some (before, after)`, the
separator removed; `none` when `sep` does not occur. -/
def breakAt (sep : Char) : List Char → Option (List Char × List Char)
  | [] => none
  | c :: cs =>
    if c = sep then some ([], cs)
    else (breakAt sep cs).map (fun p => (c :: p.1, p.2))

/-- Split at the last occurrence of `sep` (Python `str.rpartition`). -/
def breakAtLast (sep : Char) (l : List Char) : Option (List Char × List Char) :=
  match breakAt sep l.reverse with
  | some p => some (p.2.reverse, p.1.reverse)
  | none => none

/-- Longest initial run of characters on which `stop` is false, paired with
the remainder (the stopping character kept in the remainder). -/
def spanUntil (stop : Char → Bool) : List Char → List Char × List Char
  | [] => ([], [])
  | c :: cs =>
    if stop c then ([], c :: cs)
    else
      let p := spanUntil stop cs
      (c :: p.1, p.2)

def splitOnCharAux (sep : Char) : List Char → List Char → List String
  | cur, [] => [String.mk cur.reverse]
  | cur, c :: cs =>
    if c = sep then String.mk cur.reverse :: splitOnCharAux sep [] cs
    else splitOnCharAux sep (c :: cur) cs

/-- Model of Python `str.split(sep)` for a one-character separator. -/
def splitOnChar (sep : Char) (s : String) : List String :=
  splitOnCharAux sep [] s.toList

/-- Model of Python `sep.join(l)`. -/
def joinWith (sep : String) : List String → String
  | [] => ""
  | [a] => a
  | a :: b :: rest => a ++ sep ++ joinWith sep (b :: rest)

/-! ### Model of `urllib.parse` (external collaborator of `crawler.py`) -/

def isSchemeChar (c : Char) : Bool :=
  c.isAlpha || c.isDigit || c == '+' || c == '-' || c == '.'

/-- Scheme detection of CPython `urlsplit`: the text before the first `:`
is a scheme when it is nonempty, starts with a letter and consists of
scheme characters; it is returned lower-cased together with the remainder.
Otherwise no scheme is detected. -/
def splitScheme (u : String) : Option String × String :=
  match breakAt ':' u.toList with
  | some (bef, aft) =>
    match bef with
    | [] => (none, u)
    | c :: cs =>
      if c.isAlpha && (c :: cs).all isSchemeChar then
        (some (lowerStr (String.mk (c :: cs))), String.mk aft)
      else (none, u)
  | none => (none, u)

structure SplitResult where
  scheme : String
  netloc : String
  path : String
  query : String
  fragment : String

/-- Model of CPython `urlsplit(u, defScheme)`: scheme detection, then the
netloc after `//` up to the first of `/?#`, then the fragment after the
first `#`, then the query after the first `?`. -/
def urlsplit (u : String) (defScheme : String) : SplitResult :=
  let sp := splitScheme u
  let scheme := match sp.1 with
    | some s => s
    | none => defScheme
  let nl :=
    if strStarts sp.2 "//" then
      let p := spanUntil (fun c => c == '/' || c == '?' || c == '#') (sp.2.toList.drop 2)
      (String.mk p.1, String.mk p.2)
    else ("", sp.2)
  let fr :=
    match breakAt '#' nl.2.toList with
    | some p => (String.mk p.1, String.mk p.2)
    | none => (nl.2, "")
  let pq :=
    match breakAt '?' fr.1.toList with
    | some p => (String.mk p.1, String.mk p.2)
    | none => (fr.1, "")
  ⟨scheme, nl.1, pq.1, pq.2, fr.2⟩

/-- Model of CPython `urlunsplit`. -/
def urlunsplit (r : SplitResult) : String :=
  let u1 :=
    if r.netloc ≠ "" ∨ (r.path ≠ "" ∧ strStarts r.path "//") then
      "//" ++ r.netloc ++ (if r.path ≠ "" ∧ ¬ strStarts r.path "/" then "/" ++ r.path else r.path)
    else r.path
  let u2 := if r.scheme ≠ "" then r.scheme ++ ":" ++ u1 else u1
  let u3 := if r.query ≠ "" then u2 ++ "?" ++ r.query else u2
  if r.fragment ≠ "" then u3 ++ "#" ++ r.fragment else u3

def uses_relative : List String :=
  ["", "ftp", "http", "gopher", "nntp", "imap", "wais", "file", "https",
   "shttp", "mms", "prospero", "rtsp", "rtspu", "sftp", "svn", "svn+ssh",
   "ws", "wss"]

def uses_netloc : List String :=
  ["", "ftp", "http", "gopher", "nntp", "telnet", "imap", "wais", "file",
   "mms", "https", "shttp", "snews", "prospero", "rtsp", "rtspu", "rsync",
   "svn", "svn+ssh", "sftp", "nfs", "git", "git+ssh", "ws", "wss"]

/-- CPython `urljoin`'s `segments[1:-1] = filter(None, segments[1:-1])`:
drop empty segments strictly between the first and the last. -/
def filterMiddle (l : List String) : List String :=
  match l with
  | [] => []
  | [a] => [a]
  | a :: rest => a :: ((rest.dropLast.filter (fun s => s ≠ "")) ++ [rest.getLastD ""])

/-- CPython `urljoin`'s dot-segment resolution loop. -/
def resolvePath (segments : List String) : List String :=
  let resolved := segments.foldl (fun acc seg =>
    if seg = ".." then acc.dropLast
    else if seg = "." then acc
    else acc ++ [seg]) ([] : List String)
  if segments.getLastD "" = ".." ∨ segments.getLastD "" = "." then resolved ++ [""]
  else resolved

/-- Model of CPython `urljoin(base, url)` (the `params` component is kept
inside the path). -/
def urljoin (base url : String) : String :=
  if base = "" then url
  else if url = "" then base
  else
    let b := urlsplit base ""
    let r := urlsplit url b.scheme
    if r.scheme ≠ b.scheme ∨ ¬ uses_relative.contains r.scheme then url
    else if uses_netloc.contains r.scheme ∧ r.netloc ≠ "" then urlunsplit r
    else
      let netloc := if uses_netloc.contains r.scheme then b.netloc else r.netloc
      if r.path = "" then
        urlunsplit ⟨r.scheme, netloc, b.path,
          (if r.query = "" then b.query else r.query), r.fragment⟩
      else
        let bparts := splitOnChar '/' b.path
        let bparts2 := if bparts.getLastD "" ≠ "" then bparts.dropLast else bparts
        let segments :=
          if strStarts r.path "/" then splitOnChar '/' r.path
          else filterMiddle (bparts2 ++ splitOnChar '/' r.path)
        let joined := joinWith "/" (resolvePath segments)
        urlunsplit ⟨r.scheme, netloc, (if joined = "" then "/" else joined),
          r.query, r.fragment⟩

/-- Model of CPython `urldefrag`. -/
def urldefrag (u : String) : String × String :=
  if u.toList.contains '#' then
    let r := urlsplit u ""
    (urlunsplit ⟨r.scheme, r.netloc, r.path, r.query, ""⟩, r.fragment)
  else (u, "")

/-- Model of `urlparse(u).hostname`: the netloc after the last `@`, up to
the first `:` (port), lower-cased; `""` models Python's `None`. -/
def pyHostname (u : String) : String :=
  let n := (urlsplit u "").netloc
  let afterAt :=
    match breakAtLast '@' n.toList with
    | some p => p.2
    | none => n.toList
  lowerStr (String.mk (spanUntil (fun c => c == ':') afterAt).1)

/-! ### Pure helpers of `crawler.py` -/

/-- `normalize_url` (crawler.py lines 22-37): reject an empty href; strip;
reject `mailto:`/`javascript:` prefixes; join against the base and drop the
fragment; reject when the resulting scheme does not start with `"http"`.
The Lean model is total, so the `except: return None` branch (which maps
any exception from the URL library to a rejection) has no residue here. -/
def normalize_url (base href : String) : Option String :=
  if href = "" then none
  else
    if strStarts (pyStrip href) "mailto:" ∨ strStarts (pyStrip href) "javascript:" then none
    else
      if strStarts (urlsplit (urldefrag (urljoin base (pyStrip href))).1 "").scheme "http" = false
      then none
      else some (urldefrag (urljoin base (pyStrip href))).1

/-- `host_in_domain` (crawler.py lines 39-42); `""` models a `None` host. -/
def host_in_domain (host domain : String) : Bool :=
  if host = "" then false
  else host == domain || strEnds host ("." ++ domain)

/-- `domain_from_seed` (crawler.py lines 44-45). -/
def domain_from_seed (seed_url : String) : String :=
  pyHostname seed_url

/-- `content_main_type` (crawler.py lines 47-50). -/
def content_main_type (content_type : String) : String :=
  if content_type = "" then ""
  else
    match breakAt ';' content_type.toList with
    | some p => lowerStr (pyStrip (String.mk p.1))
    | none => lowerStr (pyStrip content_type)

/-! ### Stats (crawler.py lines 53-88) -/

structure SizeBuckets where
  lt1k : Nat := 0
  k1_10 : Nat := 0
  k10_100 : Nat := 0
  k100_1m : Nat := 0
  ge1m : Nat := 0

/-- `SizeBuckets.add` (crawler.py lines 61-66). -/
def SizeBuckets.add (b : SizeBuckets) (nbytes : Nat) : SizeBuckets :=
  if nbytes < 1024 then { b with lt1k := b.lt1k + 1 }
  else if nbytes < 10 * 1024 then { b with k1_10 := b.k1_10 + 1 }
  else if nbytes < 100 * 1024 then { b with k10_100 := b.k10_100 + 1 }
  else if nbytes < 1024 * 1024 then { b with k100_1m := b.k100_1m + 1 }
  else { b with ge1m := b.ge1m + 1 }

def SizeBuckets.total (b : SizeBuckets) : Nat :=
  b.lt1k + b.k1_10 + b.k10_100 + b.k100_1m + b.ge1m

structure Stats where
  attempted : Nat
  succeeded : Nat
  failed_or_aborted : Nat
  by_status : List Nat
  by_content_type : List String
  sizes : SizeBuckets

/-- `Stats.on_attempt` (crawler.py lines 78-84); the status histogram is
kept as the multiset of recorded statuses. -/
def Stats.on_attempt (st : Stats) (status : Nat) : Stats :=
  { st with
    attempted := st.attempted + 1
    by_status := st.by_status ++ [status]
    succeeded := if 200 ≤ status ∧ status < 300 then st.succeeded + 1 else st.succeeded
    failed_or_aborted :=
      if 200 ≤ status ∧ status < 300 then st.failed_or_aborted
      else st.failed_or_aborted + 1 }

/-- `Stats.on_visit` (crawler.py lines 86-88). -/
def Stats.on_visit (st : Stats) (nbytes : Nat) (content_type : String) : Stats :=
  { st with
    sizes := st.sizes.add nbytes
    by_content_type := st.by_content_type ++ [content_type] }

def initStats : Stats :=
  ⟨0, 0, 0, [], [], {}⟩

/-! ### Politeness gate (crawler.py lines 91-103), timed model

`Politeness.wait` runs under `self._lock`, so its executions are
serialized; a run of the gate is a sequence of calls.  Each call reads the
monotonic clock (`now`), sleeps `delay - (now - last)` when that is
positive, reads the clock again (`wake`) and stores it as the new `last`.
The clock readings are supplied by the environment; `politenessTrace`
states exactly the guarantees of a monotonic clock and of `asyncio.sleep`
(a sleep of `d` resumes no earlier than `d` after it started). -/

structure Politeness where
  delay : ℚ
  last : ℚ

/-- The duration `Politeness.wait` asks `asyncio.sleep` for (0 when it does
not sleep). -/
def Politeness.sleepFor (p : Politeness) (now : ℚ) : ℚ :=
  if now - p.last < p.delay then p.delay - (now - p.last) else 0

/-- The state update of `Politeness.wait`: the second clock reading becomes
the last-dispatch timestamp. -/
def Politeness.wait (p : Politeness) (wake : ℚ) : Politeness :=
  { p with last := wake }

/-- A list of `(now, wake)` clock-reading pairs is a possible execution of
successive serialized `Politeness.wait` calls: each entry clock reading is
at least the previous stored timestamp (monotonic clock, read under the
lock after the previous call wrote `last`), and the post-sleep reading
`wake` is at least `now` plus the requested sleep duration. -/
def politenessTrace (p : Politeness) : List (ℚ × ℚ) → Prop
  | [] => True
  | (now, wake) :: rest =>
      p.last ≤ now ∧ now + p.sleepFor now ≤ wake ∧ politenessTrace (p.wait wake) rest

/-! ### Robots policy (crawler.py lines 139-155, 167-173)

`urllib.robotparser` is an external collaborator; its `can_fetch` is
modelled as a capability `rp : String → Option Bool` (`none` models an
exception raised during the query). -/

/-- The robots-loading step of `Crawler._init_session` (lines 145-155):
the fetch result is `none` when the request or the body read raised, and
`some (status, body)` otherwise.  Returns `(_robots_ok, parsed text)`.
The response status is never consulted: any readable body is handed to
`rp.parse`, and only an exception turns `_robots_ok` off. -/
def robots_load (fetch_result : Option (Nat × String)) : Bool × Option String :=
  match fetch_result with
  | some r => (true, some r.2)
  | none => (false, none)

/-- `Crawler.allowed_by_robots` (lines 167-173). -/
def allowed_by_robots (robots_ok : Bool) (rp : String → Option Bool) (url : String) : Bool :=
  if robots_ok = false then true
  else
    match rp url with
    | some b => b
    | none => true

/-! ### The worker loop (crawler.py lines 188-233), single-worker model

`asyncio` scheduling is cooperative and `Crawler.worker` holds no await
point between the loop test, the dequeue, the seen check and the seen
insertion, so the loop body up to the fetch is atomic; the model executes
one loop iteration per step. -/

/-- The transport and extraction environment: `none` models a transport
exception for that URL; otherwise the final response's status, body length
and content type, plus the anchor hrefs the HTML extractor yields on the
body. -/
structure Response where
  status : Nat
  bodyLen : Nat
  ctype : String
  hrefs : List String

def Env : Type := String → Option Response

structure Config where
  domain : String
  max_pages : Nat
  max_depth : Nat
  robots_ok : Bool
  rp : String → Option Bool

structure CState where
  seen : List String
  to_crawl : List (String × Nat)
  fetchRows : List (String × Nat)
  visitRows : List (String × Nat × Nat × String)
  urlRows : List (String × Bool)
  stats : Stats

/-- `Crawler.fetch_one` (lines 175-186) without the politeness wait (timed
separately): a transport exception yields the synthetic outcome
`(599, b"", "")`. -/
def fetch_one (env : Env) (url : String) : Nat × Nat × String :=
  match env url with
  | some r => (r.status, r.bodyLen, r.ctype)
  | none => (599, 0, "")

def hrefsOf (env : Env) (url : String) : List String :=
  match env url with
  | some r => r.hrefs
  | none => []

/-- The `links` set built at lines 218-223: normalized hrefs, rejections
dropped, de-duplicated (modelled in first-discovery order). -/
def extractLinks (url : String) (hrefs : List String) : List String :=
  hrefs.foldl (fun acc h =>
    match normalize_url url h with
    | some nu => if acc.contains nu then acc else acc ++ [nu]
    | none => acc) []

/-- One iteration of the link loop at lines 225-230: record a UrlIndicator
for the link, and append it to the frontier when it is in-domain, not yet
seen, and the admission cap `len(seen) + len(to_crawl) < max_pages` holds.
The pair threaded through is `(to_crawl, urlRows)`. -/
def enqueueLink (cfg : Config) (seen : List String) (depth : Nat)
    (st : List (String × Nat) × List (String × Bool)) (link : String) :
    List (String × Nat) × List (String × Bool) :=
  if host_in_domain (pyHostname link) cfg.domain = true ∧ link ∉ seen ∧
      seen.length + st.1.length < cfg.max_pages then
    (st.1 ++ [(link, depth + 1)], st.2 ++ [(link, host_in_domain (pyHostname link) cfg.domain)])
  else
    (st.1, st.2 ++ [(link, host_in_domain (pyHostname link) cfg.domain)])

/-- The 2xx branch at lines 212-233: extract and enqueue links for
HTML-family content, then record the visit and update the size and
content-type statistics. -/
def stepVisit (cfg : Config) (env : Env) (s : CState) (url : String) (depth : Nat)
    (blen : Nat) (ctype : String) : CState :=
  if content_main_type ctype = "text/html" ∨ content_main_type ctype = "application/xhtml+xml" then
    { s with
      to_crawl := ((extractLinks url (hrefsOf env url)).foldl
        (enqueueLink cfg s.seen depth) (s.to_crawl, s.urlRows)).1
      urlRows := ((extractLinks url (hrefsOf env url)).foldl
        (enqueueLink cfg s.seen depth) (s.to_crawl, s.urlRows)).2
      visitRows := s.visitRows ++
        [(url, blen, (extractLinks url (hrefsOf env url)).length, content_main_type ctype)]
      stats := s.stats.on_visit blen (content_main_type ctype) }
  else
    { s with
      visitRows := s.visitRows ++ [(url, blen, 0, content_main_type ctype)]
      stats := s.stats.on_visit blen (content_main_type ctype) }

/-- Lines 206-233: fetch, record the attempt (CSV row and `on_attempt`),
and on a 2xx status proceed to the visit branch. -/
def stepFetch (cfg : Config) (env : Env) (s : CState) (url : String) (depth : Nat) : CState :=
  if 200 ≤ (fetch_one env url).1 ∧ (fetch_one env url).1 < 300 then
    stepVisit cfg env
      { s with
        fetchRows := s.fetchRows ++ [(url, (fetch_one env url).1)]
        stats := s.stats.on_attempt (fetch_one env url).1 }
      url depth (fetch_one env url).2.1 (fetch_one env url).2.2
  else
    { s with
      fetchRows := s.fetchRows ++ [(url, (fetch_one env url).1)]
      stats := s.stats.on_attempt (fetch_one env url).1 }

/-- Lines 195-233 for a URL not yet seen: add it to `seen`, record its
UrlIndicator, then discard on out-of-domain, exceeded depth or robots
denial (in that order), else fetch. -/
def stepFresh (cfg : Config) (env : Env) (s : CState) (url : String) (depth : Nat) : CState :=
  if host_in_domain (pyHostname url) cfg.domain = false then
    { s with seen := s.seen ++ [url]
             urlRows := s.urlRows ++ [(url, host_in_domain (pyHostname url) cfg.domain)] }
  else if cfg.max_depth < depth then
    { s with seen := s.seen ++ [url]
             urlRows := s.urlRows ++ [(url, host_in_domain (pyHostname url) cfg.domain)] }
  else if allowed_by_robots cfg.robots_ok cfg.rp url = false then
    { s with seen := s.seen ++ [url]
             urlRows := s.urlRows ++ [(url, host_in_domain (pyHostname url) cfg.domain)] }
  else
    stepFetch cfg env
      { s with seen := s.seen ++ [url]
               urlRows := s.urlRows ++ [(url, host_in_domain (pyHostname url) cfg.domain)] }
      url depth

/-- The body of one `while` iteration once the head entry is known
(lines 189-193): the loop runs only while `len(seen) < max_pages`; a head
already in `seen` is skipped. -/
def stepCons (cfg : Config) (env : Env) (s : CState) (url : String) (depth : Nat)
    (rest : List (String × Nat)) : CState :=
  if s.seen.length < cfg.max_pages then
    if url ∈ s.seen then { s with to_crawl := rest }
    else stepFresh cfg env { s with to_crawl := rest } url depth
  else s

/-- One iteration of the `Crawler.worker` loop; the state is unchanged when
the loop condition fails. -/
def step (cfg : Config) (env : Env) (s : CState) : CState :=
  match s.to_crawl with
  | [] => s
  | (url, depth) :: rest => stepCons cfg env s url depth rest

def runSteps (cfg : Config) (env : Env) (s : CState) : Nat → CState
  | 0 => s
  | n + 1 => runSteps cfg env (step cfg env s) n

/-- `Crawler.__init__` frontier/seen initialization (lines 118-120). -/
def initState (seed_url : String) : CState :=
  ⟨[], [(seed_url, 0)], [], [], [], initStats⟩

/-! ### Concrete environments for counterexamples and witnesses -/

def seedUrl : String := "https://e.com/"
def urlA : String := "https://e.com/a"
def urlB : String := "https://e.com/b"
def urlL : String := "https://e.com/l"

/-- Environment in which the seed page links to `a` and `b`, and both of
those pages link to `l`. -/
def envDup : Env := fun u =>
  if u = seedUrl then some ⟨200, 5000, "text/html", [urlA, urlB]⟩
  else if u = urlA then some ⟨200, 1200, "text/html", [urlL]⟩
  else if u = urlB then some ⟨200, 1300, "text/html", [urlL]⟩
  else none

def cfgDup : Config :=
  ⟨domain_from_seed seedUrl, 10, 5, true, fun _ => some true⟩

/-- Environment in which the seed page links to `a` and `b`. -/
def envTwo : Env := fun u =>
  if u = seedUrl then some ⟨200, 5000, "text/html", [urlA, urlB]⟩
  else if u = urlA then some ⟨200, 1200, "text/html", []⟩
  else none

/-- `max_pages = 2`; robots denies exactly `urlA`. -/
def cfgTwo : Config :=
  ⟨domain_from_seed seedUrl, 2, 5, true, fun u => some (u != urlA)⟩

/-- Environment in which every fetch raises a transport error. -/
def envFail : Env := fun _ => none

def cfgOpen : Config :=
  ⟨"e.com", 10, 5, true, fun _ => some true⟩

/-- A concrete politeness gate: 2-unit delay, last dispatch at time 0. -/
def pWit : Politeness := ⟨2, 0⟩

/-- Two serialized `wait` calls: clock readings `(now, wake)` of `(1, 3)`
(sleeps 1 unit) and `(10, 10)` (no sleep). -/
def callsWit : List (ℚ × ℚ) := [(1, 3), (10, 10)]

/-- The robots-file-parsing capability (`urllib.robotparser`, an external
collaborator) applied to the rule set parsed from the body
`"User-agent: *\nDisallow: /"`: `can_fetch` denies every URL under these
rules. -/
def denyAllCanFetch : String → Option Bool := fun _ => some false

/-! ### Structural lemmas about the worker step -/

theorem step_nil (cfg : Config) (env : Env) (s : CState) (h : s.to_crawl = []) :
    step cfg env s = s := by
  unfold step; rw [h]

theorem step_eq_cons (cfg : Config) (env : Env) (s : CState) (url : String) (depth : Nat)
    (rest : List (String × Nat)) (h : s.to_crawl = (url, depth) :: rest) :
    step cfg env s = stepCons cfg env s url depth rest := by
  unfold step; rw [h]

theorem stepVisit_seen (cfg : Config) (env : Env) (s : CState) (url : String) (depth : Nat)
    (blen : Nat) (ctype : String) :
    (stepVisit cfg env s url depth blen ctype).seen = s.seen := by
  unfold stepVisit; split <;> rfl

theorem stepVisit_fetchRows (cfg : Config) (env : Env) (s : CState) (url : String) (depth : Nat)
    (blen : Nat) (ctype : String) :
    (stepVisit cfg env s url depth blen ctype).fetchRows = s.fetchRows := by
  unfold stepVisit; split <;> rfl

theorem stepVisit_attempted (cfg : Config) (env : Env) (s : CState) (url : String) (depth : Nat)
    (blen : Nat) (ctype : String) :
    (stepVisit cfg env s url depth blen ctype).stats.attempted = s.stats.attempted := by
  unfold stepVisit; split <;> rfl

theorem stepVisit_succeeded (cfg : Config) (env : Env) (s : CState) (url : String) (depth : Nat)
    (blen : Nat) (ctype : String) :
    (stepVisit cfg env s url depth blen ctype).stats.succeeded = s.stats.succeeded := by
  unfold stepVisit; split <;> rfl

theorem stepVisit_failed (cfg : Config) (env : Env) (s : CState) (url : String) (depth : Nat)
    (blen : Nat) (ctype : String) :
    (stepVisit cfg env s url depth blen ctype).stats.failed_or_aborted
      = s.stats.failed_or_aborted := by
  unfold stepVisit; split <;> rfl

theorem stepFetch_seen (cfg : Config) (env : Env) (s : CState) (url : String) (depth : Nat) :
    (stepFetch cfg env s url depth).seen = s.seen := by
  unfold stepFetch; split
  · rw [stepVisit_seen]
  · rfl

theorem stepFetch_fetchRows (cfg : Config) (env : Env) (s : CState) (url : String) (depth : Nat) :
    (stepFetch cfg env s url depth).fetchRows
      = s.fetchRows ++ [(url, (fetch_one env url).1)] := by
  unfold stepFetch; split
  · rw [stepVisit_fetchRows]
  · rfl

theorem stepFresh_seen (cfg : Config) (env : Env) (s : CState) (url : String) (depth : Nat) :
    (stepFresh cfg env s url depth).seen = s.seen ++ [url] := by
  unfold stepFresh; split_ifs <;> first | rfl | rw [stepFetch_seen]

theorem stepFresh_fetchRows (cfg : Config) (env : Env) (s : CState) (url : String) (depth : Nat) :
    (stepFresh cfg env s url depth).fetchRows = s.fetchRows ∨
      (stepFresh cfg env s url depth).fetchRows
        = s.fetchRows ++ [(url, (fetch_one env url).1)] := by
  unfold stepFresh; split_ifs
  · exact Or.inl rfl
  · exact Or.inl rfl
  · exact Or.inl rfl
  · exact Or.inr (by rw [stepFetch_fetchRows])

/-- Case analysis on how one worker step changes `seen`: either the state's
`seen` is untouched, or the loop condition held and a URL not yet in `seen`
was appended. -/
theorem step_seen_cases (cfg : Config) (env : Env) (s : CState) :
    (step cfg env s).seen = s.seen ∨
      ∃ url, (step cfg env s).seen = s.seen ++ [url] ∧
        s.seen.length < cfg.max_pages ∧ url ∉ s.seen := by
  cases hq : s.to_crawl with
  | nil => rw [step_nil cfg env s hq]; exact Or.inl rfl
  | cons hd tl =>
    obtain ⟨url, d⟩ := hd
    rw [step_eq_cons cfg env s url d tl hq]
    unfold stepCons
    split_ifs with hcap hmem
    · exact Or.inl rfl
    · exact Or.inr ⟨url, by rw [stepFresh_seen], hcap, hmem⟩
    · exact Or.inl rfl

/-- Case analysis on how one worker step changes the fetch log. -/
theorem step_fetchRows_cases (cfg : Config) (env : Env) (s : CState) :
    (step cfg env s).fetchRows = s.fetchRows ∨
      ∃ url st, (step cfg env s).fetchRows = s.fetchRows ++ [(url, st)] ∧
        url ∉ s.seen ∧ (step cfg env s).seen = s.seen ++ [url] := by
  cases hq : s.to_crawl with
  | nil => rw [step_nil cfg env s hq]; exact Or.inl rfl
  | cons hd tl =>
    obtain ⟨url, d⟩ := hd
    rw [step_eq_cons cfg env s url d tl hq]
    unfold stepCons
    split_ifs with hcap hmem
    · exact Or.inl rfl
    · rcases stepFresh_fetchRows cfg env { s with to_crawl := tl } url d with h | h
      · exact Or.inl h
      · exact Or.inr ⟨url, (fetch_one env url).1, h, hmem, by rw [stepFresh_seen]⟩
    · exact Or.inl rfl

/-- The crawl invariant: `seen` is duplicate-free, the fetched URLs are
duplicate-free, and every fetched URL is in `seen`. -/
def CrawlInv (s : CState) : Prop :=
  s.seen.Nodup ∧ (s.fetchRows.map Prod.fst).Nodup ∧
    ∀ u ∈ s.fetchRows.map Prod.fst, u ∈ s.seen

theorem step_inv (cfg : Config) (env : Env) (s : CState) (h : CrawlInv s) :
    CrawlInv (step cfg env s) := by
  obtain ⟨hseen, hfetch, hsub⟩ := h
  rcases step_seen_cases cfg env s with hs | ⟨u, hs, hcap, hu⟩ <;>
    rcases step_fetchRows_cases cfg env s with hf | ⟨v, st, hf, hv, hvs⟩
  · exact ⟨hs ▸ hseen, hf ▸ hfetch, fun w hw => hs ▸ hsub w (hf ▸ hw)⟩
  · exfalso
    have hlen := congrArg List.length (hs.symm.trans hvs)
    simp at hlen
  · refine ⟨?_, hf ▸ hfetch, fun w hw => ?_⟩
    · rw [hs]
      exact List.Nodup.append hseen (List.nodup_singleton u)
        (fun a ha hb => hu ((List.mem_singleton.mp hb) ▸ ha))
    · rw [hs]
      exact List.mem_append_left _ (hsub w (hf ▸ hw))
  · have huv : u = v := by
      have := List.append_cancel_left (hs.symm.trans hvs)
      simpa using this
    subst huv
    refine ⟨?_, ?_, fun w hw => ?_⟩
    · rw [hs]
      exact List.Nodup.append hseen (List.nodup_singleton u)
        (fun a ha hb => hu ((List.mem_singleton.mp hb) ▸ ha))
    · rw [hf]
      simp only [List.map_append, List.map_cons, List.map_nil]
      exact List.Nodup.append hfetch (List.nodup_singleton u)
        (fun a ha hb => hv ((List.mem_singleton.mp hb) ▸ hsub a ha))
    · rw [hf] at hw
      rw [hs]
      simp only [List.map_append, List.map_cons, List.map_nil, List.mem_append,
        List.mem_singleton] at hw ⊢
      rcases hw with hw | hw
      · exact Or.inl (hsub w hw)
      · exact Or.inr (by simp [hw])

theorem runSteps_inv (cfg : Config) (env : Env) (s : CState) (h : CrawlInv s) (n : Nat) :
    CrawlInv (runSteps cfg env s n) := by
  induction n generalizing s with
  | zero => exact h
  | succ n ih => exact ih _ (step_inv cfg env s h)

theorem initState_inv (seed : String) : CrawlInv (initState seed) := by
  refine ⟨List.nodup_nil, List.nodup_nil, by simp [initState]⟩

/-- One step never pushes `seen` past `max_pages`. -/
theorem step_seen_le (cfg : Config) (env : Env) (s : CState)
    (h : s.seen.length ≤ cfg.max_pages) :
    (step cfg env s).seen.length ≤ cfg.max_pages := by
  rcases step_seen_cases cfg env s with hs | ⟨u, hs, hcap, _⟩
  · rw [hs]; exact h
  · rw [hs]; simp only [List.length_append, List.length_cons, List.length_nil]
    omega

theorem runSteps_seen_le (cfg : Config) (env : Env) (s : CState) (n : Nat)
    (h : s.seen.length ≤ cfg.max_pages) :
    (runSteps cfg env s n).seen.length ≤ cfg.max_pages := by
  induction n generalizing s with
  | zero => exact h
  | succ n ih => exact ih _ (step_seen_le cfg env s h)

/-! ### Claim theorems -/

/-- Claim C2: a dequeued URL is added to `seen` only when `|seen|` is
strictly below `max_pages` (second conjunct: `seen` can only change in a
step taken with `|seen| < max_pages`), so `|seen| ≤ max_pages` holds after
every worker step of any crawl from the initial state (first conjunct). -/
theorem c2_seen_le_max_pages (cfg : Config) (env : Env) (seed : String) (n : Nat) :
    (runSteps cfg env (initState seed) n).seen.length ≤ cfg.max_pages ∧
    (∀ s : CState, (step cfg env s).seen ≠ s.seen → s.seen.length < cfg.max_pages) := by
  constructor
  · exact runSteps_seen_le cfg env (initState seed) n (by simp [initState])
  · intro s hne
    rcases step_seen_cases cfg env s with hs | ⟨u, hs, hcap, _⟩
    · exact absurd hs hne
    · exact hcap

/-- Witness for C2 on a concrete crawl: the bound holds after three steps
of the `envTwo` crawl, and the first step (which does change `seen`)
starts strictly below the cap. -/
theorem c2_witness :
    (runSteps cfgTwo envTwo (initState seedUrl) 3).seen.length ≤ cfgTwo.max_pages ∧
    (initState seedUrl).seen.length < cfgTwo.max_pages :=
  ⟨(c2_seen_le_max_pages cfgTwo envTwo seedUrl 3).1,
   (c2_seen_le_max_pages cfgTwo envTwo seedUrl 0).2 (initState seedUrl) (by decide)⟩

/-- Claim C3: when the transport raises (`env url = none`), `fetch_one`
returns the synthetic outcome `(599, empty body, empty content type)`, and
the worker still records the attempt: a FetchRecord row `(url, 599)` is
appended, `on_attempt` increments `attempted`, and — 599 lying outside
`[200, 300)` — `failed_or_aborted` is incremented while `succeeded` is
unchanged; no visit row is produced and no error escapes (the model is a
total function). -/
theorem c3_transport_failure_recorded (cfg : Config) (env : Env) (s : CState)
    (url : String) (d : Nat) (rest : List (String × Nat))
    (hq : s.to_crawl = (url, d) :: rest)
    (hcap : s.seen.length < cfg.max_pages)
    (hnew : url ∉ s.seen)
    (hdom : host_in_domain (pyHostname url) cfg.domain = true)
    (hdepth : d ≤ cfg.max_depth)
    (hrob : allowed_by_robots cfg.robots_ok cfg.rp url = true)
    (henv : env url = none) :
    fetch_one env url = (599, 0, "") ∧
    (step cfg env s).fetchRows = s.fetchRows ++ [(url, 599)] ∧
    (step cfg env s).stats.attempted = s.stats.attempted + 1 ∧
    (step cfg env s).stats.failed_or_aborted = s.stats.failed_or_aborted + 1 ∧
    (step cfg env s).stats.succeeded = s.stats.succeeded ∧
    (step cfg env s).visitRows = s.visitRows := by
  have hf : fetch_one env url = (599, 0, "") := by unfold fetch_one; rw [henv]
  rw [step_eq_cons cfg env s url d rest hq]
  unfold stepCons
  rw [if_pos hcap, if_neg hnew]
  unfold stepFresh
  rw [if_neg (by simp [hdom]), if_neg (by omega), if_neg (by simp [hrob])]
  unfold stepFetch
  rw [hf]
  refine ⟨rfl, ?_⟩
  norm_num [Stats.on_attempt]

/-- Witness for C3: the seed fetch of the all-failing environment. -/
theorem c3_witness :
    fetch_one envFail seedUrl = (599, 0, "") ∧
    (step cfgOpen envFail (initState seedUrl)).fetchRows
      = (initState seedUrl).fetchRows ++ [(seedUrl, 599)] ∧
    (step cfgOpen envFail (initState seedUrl)).stats.attempted
      = (initState seedUrl).stats.attempted + 1 ∧
    (step cfgOpen envFail (initState seedUrl)).stats.failed_or_aborted
      = (initState seedUrl).stats.failed_or_aborted + 1 ∧
    (step cfgOpen envFail (initState seedUrl)).stats.succeeded
      = (initState seedUrl).stats.succeeded ∧
    (step cfgOpen envFail (initState seedUrl)).visitRows
      = (initState seedUrl).visitRows :=
  c3_transport_failure_recorded cfgOpen envFail (initState seedUrl) seedUrl 0 [] rfl
    (by decide) (by decide) (by decide) (by decide) (by decide) rfl

/-- Claim C6: a dequeued fresh entry that is discarded without fetching —
out-of-domain host, exceeded depth, or robots denial — still gets a
UrlIndicator row recording its domain membership, and (in particular in
the robots-denial case) no FetchRecord is written and neither `attempted`
nor `failed_or_aborted` changes. -/
theorem c6_discard_indicator (cfg : Config) (env : Env) (s : CState)
    (url : String) (d : Nat) (rest : List (String × Nat))
    (hq : s.to_crawl = (url, d) :: rest)
    (hcap : s.seen.length < cfg.max_pages)
    (hnew : url ∉ s.seen)
    (hdisc : host_in_domain (pyHostname url) cfg.domain = false ∨
      cfg.max_depth < d ∨ allowed_by_robots cfg.robots_ok cfg.rp url = false) :
    (step cfg env s).urlRows
      = s.urlRows ++ [(url, host_in_domain (pyHostname url) cfg.domain)] ∧
    (step cfg env s).fetchRows = s.fetchRows ∧
    (step cfg env s).stats.attempted = s.stats.attempted ∧
    (step cfg env s).stats.failed_or_aborted = s.stats.failed_or_aborted := by
  rw [step_eq_cons cfg env s url d rest hq]
  unfold stepCons
  rw [if_pos hcap, if_neg hnew]
  unfold stepFresh
  split_ifs with h1 h2 h3
  · exact ⟨rfl, rfl, rfl, rfl⟩
  · exact ⟨rfl, rfl, rfl, rfl⟩
  · exact ⟨rfl, rfl, rfl, rfl⟩
  · exfalso
    rcases hdisc with h | h | h
    · exact h1 h
    · exact h2 h
    · exact h3 h

/-- Witness for C6: after one step of the `envTwo` crawl the head entry is
`urlA`, which robots denies. -/
theorem c6_witness :
    (step cfgTwo envTwo (runSteps cfgTwo envTwo (initState seedUrl) 1)).urlRows
      = (runSteps cfgTwo envTwo (initState seedUrl) 1).urlRows
        ++ [(urlA, host_in_domain (pyHostname urlA) cfgTwo.domain)] ∧
    (step cfgTwo envTwo (runSteps cfgTwo envTwo (initState seedUrl) 1)).fetchRows
      = (runSteps cfgTwo envTwo (initState seedUrl) 1).fetchRows ∧
    (step cfgTwo envTwo (runSteps cfgTwo envTwo (initState seedUrl) 1)).stats.attempted
      = (runSteps cfgTwo envTwo (initState seedUrl) 1).stats.attempted ∧
    (step cfgTwo envTwo (runSteps cfgTwo envTwo (initState seedUrl) 1)).stats.failed_or_aborted
      = (runSteps cfgTwo envTwo (initState seedUrl) 1).stats.failed_or_aborted :=
  c6_discard_indicator cfgTwo envTwo (runSteps cfgTwo envTwo (initState seedUrl) 1)
    urlA 1 [] (by decide) (by decide) (by decide) (Or.inr (Or.inr (by decide)))

/-- Claim C7: the Frontier is initialized with exactly `(seed_url, 0)`,
and any worker step that performs a fetch (the fetch log grows) did so for
a head entry whose depth is at most `max_depth`. -/
theorem c7_depth_bound (cfg : Config) (env : Env) (seed : String) :
    (initState seed).to_crawl = [(seed, 0)] ∧
    ∀ s : CState, ∀ (url : String) (d : Nat) (rest : List (String × Nat)),
      s.to_crawl = (url, d) :: rest →
      (step cfg env s).fetchRows ≠ s.fetchRows → d ≤ cfg.max_depth := by
  refine ⟨rfl, fun s url d rest hq hne => ?_⟩
  rw [step_eq_cons cfg env s url d rest hq] at hne
  by_contra hgt
  push_neg at hgt
  apply hne
  unfold stepCons
  split_ifs with hcap hmem
  · rfl
  · unfold stepFresh
    by_cases h1 : host_in_domain (pyHostname url) cfg.domain = false
    · rw [if_pos h1]
    · rw [if_neg h1, if_pos hgt]
  · rfl

/-- Witness for C7: the first step of the `envTwo` crawl fetches the seed,
so its depth 0 is within `max_depth`. -/
theorem c7_witness :
    (initState seedUrl).to_crawl = [(seedUrl, 0)] ∧ (0 : Nat) ≤ cfgTwo.max_depth :=
  ⟨(c7_depth_bound cfgTwo envTwo seedUrl).1,
   (c7_depth_bound cfgTwo envTwo seedUrl).2 (initState seedUrl) seedUrl 0 [] rfl (by decide)⟩

/-- Claim C8: `SizeBuckets.add` is a total partition — every byte count
increments exactly one of the five buckets (the sum of the buckets grows
by exactly one, and the result is one of the five single-bucket updates),
and each boundary value 1024, 10240, 102400, 1048576 is attributed to the
upper bucket. -/
theorem c8_size_buckets_partition : ∀ (b : SizeBuckets) (n : Nat),
    ((b.add n).total = b.total + 1) ∧
    (b.add n = { b with lt1k := b.lt1k + 1 } ∨ b.add n = { b with k1_10 := b.k1_10 + 1 } ∨
      b.add n = { b with k10_100 := b.k10_100 + 1 } ∨
      b.add n = { b with k100_1m := b.k100_1m + 1 } ∨
      b.add n = { b with ge1m := b.ge1m + 1 }) ∧
    (b.add 1024 = { b with k1_10 := b.k1_10 + 1 }) ∧
    (b.add 10240 = { b with k10_100 := b.k10_100 + 1 }) ∧
    (b.add 102400 = { b with k100_1m := b.k100_1m + 1 }) ∧
    (b.add 1048576 = { b with ge1m := b.ge1m + 1 }) := by
  intro b n
  refine ⟨?_, ?_, ?_, ?_, ?_, ?_⟩
  · unfold SizeBuckets.add SizeBuckets.total
    split_ifs <;> simp <;> omega
  · unfold SizeBuckets.add
    split_ifs <;> simp
  · norm_num [SizeBuckets.add]
  · norm_num [SizeBuckets.add]
  · norm_num [SizeBuckets.add]
  · norm_num [SizeBuckets.add]

/-- Claim C9: for a sequence of serialized `Politeness.wait` calls whose
clock readings satisfy the monotonic-clock and sleep guarantees
(`politenessTrace`), the released dispatch timestamps (each call's stored
`last`) are consecutively spaced by at least `delay`, starting from the
previous stored timestamp. -/
theorem c9_politeness_gap (p : Politeness) (calls : List (ℚ × ℚ))
    (h : politenessTrace p calls) :
    List.Chain (fun t1 t2 => t1 + p.delay ≤ t2) p.last (calls.map Prod.snd) := by
  induction calls generalizing p with
  | nil => exact List.Chain.nil
  | cons c rest ih =>
    obtain ⟨now, wake⟩ := c
    obtain ⟨h1, h2, h3⟩ := h
    refine List.Chain.cons ?_ (ih (p.wait wake) h3)
    unfold Politeness.sleepFor at h2
    split_ifs at h2 with hd
    · linarith
    · push_neg at hd; linarith

/-- Witness for C9: a concrete two-call trace of the gate with delay 2. -/
theorem c9_witness :
    politenessTrace pWit callsWit ∧
    List.Chain (fun t1 t2 => t1 + pWit.delay ≤ t2) pWit.last (callsWit.map Prod.snd) := by
  have hc : politenessTrace pWit callsWit := by
    norm_num [politenessTrace, Politeness.sleepFor, Politeness.wait, pWit, callsWit]
  exact ⟨hc, c9_politeness_gap pWit callsWit hc⟩

/-- Claim C1 (amended): deduplication is enforced at dequeue, not at
discovery — a head URL already in `seen` is skipped without any effect
beyond the pop (second conjunct) — and therefore every URL is *processed*
at most once in any crawl: `seen` never holds duplicates and no URL gets
two FetchRecord rows (first conjunct).  Duplicate entries for one URL may
however coexist in the work queue (see the counterexample). -/
theorem c1_amended_dedup_at_dequeue (cfg : Config) (env : Env) (seed : String) (n : Nat) :
    ((runSteps cfg env (initState seed) n).seen.Nodup ∧
     ((runSteps cfg env (initState seed) n).fetchRows.map Prod.fst).Nodup) ∧
    (∀ s : CState, ∀ (url : String) (d : Nat) (rest : List (String × Nat)),
        s.to_crawl = (url, d) :: rest →
        s.seen.length < cfg.max_pages → url ∈ s.seen →
        step cfg env s = { s with to_crawl := rest }) := by
  constructor
  · have h := runSteps_inv cfg env (initState seed) (initState_inv seed) n
    exact ⟨h.1, h.2.1⟩
  · intro s url d rest hq hcap hmem
    rw [step_eq_cons cfg env s url d rest hq]
    unfold stepCons
    rw [if_pos hcap, if_pos hmem]

/-- Counterexample to C1 as stated: in the `envDup` crawl (seed links to
`a` and `b`, each of which links to `l`), after three worker steps the
work queue holds two simultaneous entries for `urlL` — the Frontier
enqueued the same URL twice, because the enqueue test consults `seen`,
which only grows at dequeue. -/
theorem c1_counterexample_duplicate_queue_entries :
    (runSteps cfgDup envDup (initState seedUrl) 3).to_crawl.map Prod.fst = [urlL, urlL] ∧
    ¬ ((runSteps cfgDup envDup (initState seedUrl) 3).to_crawl.map Prod.fst).Nodup :=
  ⟨by decide, by decide⟩

/-- Witness for C1 (amended): after four steps of the `envDup` crawl the
head entry `urlL` is already in `seen` and is skipped; and the full
five-step crawl leaves `seen` duplicate-free. -/
theorem c1_witness :
    step cfgDup envDup (runSteps cfgDup envDup (initState seedUrl) 4)
      = { runSteps cfgDup envDup (initState seedUrl) 4 with to_crawl := [] } ∧
    (runSteps cfgDup envDup (initState seedUrl) 5).seen.Nodup :=
  ⟨(c1_amended_dedup_at_dequeue cfgDup envDup seedUrl 0).2
      (runSteps cfgDup envDup (initState seedUrl) 4) urlL 2 []
      (by decide) (by decide) (by decide),
   ((c1_amended_dedup_at_dequeue cfgDup envDup seedUrl 5).1).1⟩

/-- Claim C4 (amended): the policy is fail-open when the robots fetch
*raises*: an exception during the fetch or body read turns `_robots_ok`
off, and then every `is_allowed` query answers true; an exception inside a
`can_fetch` query also resolves to true; and the query function is total
(never raises).  A non-2xx response, however, is not treated as a failure:
`_robots_ok` stays on and the response body is parsed as the rule set
(last conjunct; see the counterexample). -/
theorem c4_amended_fail_open :
    ((robots_load none).1 = false) ∧
    (∀ (rp : String → Option Bool) (url : String), allowed_by_robots false rp url = true) ∧
    (∀ (ok : Bool) (rp : String → Option Bool) (url : String),
        rp url = none → allowed_by_robots ok rp url = true) ∧
    (∀ (status : Nat) (body : String), (robots_load (some (status, body))).1 = true) := by
  refine ⟨rfl, fun rp url => rfl, fun ok rp url h => ?_, fun status body => rfl⟩
  unfold allowed_by_robots
  split_ifs with hok
  · rfl
  · rw [h]

/-- Counterexample to C4 as stated: a robots fetch that returns status 404
with body `"User-agent: *\nDisallow: /"` does not make the policy
fail-open — the body is parsed regardless of the status, and the resulting
rule set (modelled by `denyAllCanFetch`) makes `is_allowed` answer false. -/
theorem c4_counterexample_non2xx_parsed :
    (robots_load (some (404, "User-agent: *\nDisallow: /"))).1 = true ∧
    allowed_by_robots (robots_load (some (404, "User-agent: *\nDisallow: /"))).1
      denyAllCanFetch "https://www.example.com/page" = false :=
  ⟨rfl, rfl⟩

/-- Witness for C4 (amended): a query whose `can_fetch` raises resolves to
allowed. -/
theorem c4_witness :
    allowed_by_robots true (fun _ => none) "https://e.com/x" = true :=
  c4_amended_fail_open.2.2.1 true (fun _ => none) "https://e.com/x" rfl

/-- Claim C5 (amended): `normalize_url` rejects exactly when the href is
the empty string (before stripping), or after stripping starts with
`mailto:` or `javascript:`, or the scheme of the fragment-stripped join
does not start with `"http"`; otherwise it returns the href joined
against the base with the fragment stripped.  The function is total, so
malformed input cannot raise.  (As stated the claim fails: a
whitespace-only href is not rejected — it resolves to the base — and the
scheme test is a `"http"`-prefix test, not an HTTP(S) test; see the
counterexample.) -/
theorem c5_amended_normalize_url (base href : String) :
    (normalize_url base href = none ↔
      href = "" ∨
      (strStarts (pyStrip href) "mailto:" = true ∨
        strStarts (pyStrip href) "javascript:" = true) ∨
      strStarts (urlsplit (urldefrag (urljoin base (pyStrip href))).1 "").scheme "http"
        = false) ∧
    (∀ u, normalize_url base href = some u →
      u = (urldefrag (urljoin base (pyStrip href))).1) := by
  unfold normalize_url
  split_ifs with h1 h2 h3
  · exact ⟨⟨fun _ => Or.inl h1, fun _ => rfl⟩, fun u hu => hu.elim⟩
  · exact ⟨⟨fun _ => Or.inr (Or.inl h2), fun _ => rfl⟩, fun u hu => hu.elim⟩
  · exact ⟨⟨fun _ => Or.inr (Or.inr h3), fun _ => rfl⟩, fun u hu => hu.elim⟩
  · refine ⟨⟨False.elim, fun hr => ?_⟩,
      fun u hu => (Option.some_inj.mp hu).symm⟩
    rcases hr with h | h | h
    · exact absurd h h1
    · exact absurd h h2
    · exact absurd h h3

/-- Counterexample to C5 as stated: a whitespace-only href is not
rejected — it strips to the empty string, which `urljoin` resolves to the
base URL. -/
theorem c5_counterexample_whitespace_href :
    pyStrip "   " = "" ∧
    normalize_url "https://example.com/" "   " = some "https://example.com/" :=
  ⟨by decide, by decide⟩

/-- Witness for C5 (amended): a fragment-carrying relative href resolves
to the fragment-stripped join. -/
theorem c5_witness :
    normalize_url "https://e.com/" "page#x" = some "https://e.com/page" ∧
    "https://e.com/page" = (urldefrag (urljoin "https://e.com/" (pyStrip "page#x"))).1 :=
  ⟨by decide,
   (c5_amended_normalize_url "https://e.com/" "page#x").2 "https://e.com/page" (by decide)⟩

/-- Claim C10: every dequeued fresh URL is added to `seen` before the
domain, depth and robots filters run (first conjunct, for an arbitrary
crawl), so discarded URLs permanently consume admission capacity; in the
concrete `envTwo` crawl with `max_pages = 2`, the robots-denied `urlA`
consumes the second admission slot and only one URL is ever fetched, even
though `urlB` — in-domain, robots-allowed, discovered at depth 1 — was
available (second conjunct). -/
theorem c10_seen_before_filters (cfg : Config) (env : Env) :
    (∀ s : CState, ∀ (url : String) (d : Nat) (rest : List (String × Nat)),
        s.to_crawl = (url, d) :: rest →
        s.seen.length < cfg.max_pages → url ∉ s.seen →
        (step cfg env s).seen = s.seen ++ [url]) ∧
    ((runSteps cfgTwo envTwo (initState seedUrl) 3).fetchRows.map Prod.fst = [seedUrl] ∧
     cfgTwo.max_pages = 2 ∧
     (urlB, true) ∈ (runSteps cfgTwo envTwo (initState seedUrl) 3).urlRows ∧
     host_in_domain (pyHostname urlB) cfgTwo.domain = true ∧
     cfgTwo.rp urlB = some true ∧
     (1 : Nat) ≤ cfgTwo.max_depth ∧
     urlB ∉ (runSteps cfgTwo envTwo (initState seedUrl) 3).fetchRows.map Prod.fst) := by
  constructor
  · intro s url d rest hq hcap hnew
    rw [step_eq_cons cfg env s url d rest hq]
    unfold stepCons
    rw [if_pos hcap, if_neg hnew]
    rw [stepFresh_seen]
  · exact ⟨by decide, by decide, by decide, by decide, by decide, by decide, by decide⟩

/-- Witness for C10: the first step of the `envTwo` crawl adds the seed to
`seen` (before any filter runs). -/
theorem c10_witness :
    (step cfgTwo envTwo (initState seedUrl)).seen = (initState seedUrl).seen ++ [seedUrl] :=
  (c10_seen_before_filters cfgTwo envTwo).1 (initState seedUrl) seedUrl 0 []
    rfl (by decide) (by decide)
